import Mathlib

/-!
Shallow embedding of the mesh controller's spec store and informer
(easegress `pkg/object/meshcontroller`): the typed repository over the
KV store (`service.Service`) and the change-dispatching informer
(`informer.meshInformer`), together with proofs about their behaviour.

Serialization (yaml marshal/unmarshal) is external to the embedded code;
it is passed in as encode/decode parameters, so every theorem holds for
any codec satisfying its stated round-trip hypotheses.
-/

namespace Mesh

/-! ### Key layout

Modelled from the spec: the `layout` package is not among the source
files; §3 of the spec fixes the key table:
`/services/spec/<name>`, `/service-instances/spec/<service>/<instance>`,
`/service-instances/status/<service>/<instance>`, `/tenants/<name>`,
`/ingresses/<name>`.
-/

/-- Modelled from the spec: prefix of all service spec keys. -/
def ServiceSpecPrefix : String := "/services/spec/"

/-- Modelled from the spec: key of one service spec. -/
def ServiceSpecKey (name : String) : String := ServiceSpecPrefix ++ name

/-- Modelled from the spec: prefix of all service instance spec keys. -/
def AllServiceInstanceSpecPrefix : String := "/service-instances/spec/"

/-- Modelled from the spec: prefix of one service's instance spec keys. -/
def ServiceInstanceSpecPrefix (serviceName : String) : String :=
  AllServiceInstanceSpecPrefix ++ serviceName ++ "/"

/-- Modelled from the spec: key of one service instance spec. -/
def ServiceInstanceSpecKey (serviceName instanceID : String) : String :=
  ServiceInstanceSpecPrefix serviceName ++ instanceID

/-- Modelled from the spec: prefix of all service instance status keys. -/
def AllServiceInstanceStatusPrefix : String := "/service-instances/status/"

/-- Modelled from the spec: prefix of one service's instance status keys. -/
def ServiceInstanceStatusPrefix (serviceName : String) : String :=
  AllServiceInstanceStatusPrefix ++ serviceName ++ "/"

/-- Modelled from the spec: key of one service instance status. -/
def ServiceInstanceStatusKey (serviceName instanceID : String) : String :=
  ServiceInstanceStatusPrefix serviceName ++ instanceID

/-- Modelled from the spec: prefix of all tenant keys. -/
def TenantPrefix : String := "/tenants/"

/-- Modelled from the spec: key of one tenant. -/
def TenantSpecKey (name : String) : String := TenantPrefix ++ name

/-- Modelled from the spec: prefix of all ingress keys. -/
def IngressPrefix : String := "/ingresses/"

/-- Modelled from the spec: key of one ingress. -/
def IngressSpecKey (name : String) : String := IngressPrefix ++ name

/-! ### Entities

Modelled from the spec: the `spec` package carrying the entity structs is
not among the source files; §3 of the spec gives their identity fields.
Only the fields the embedded code reads are modelled
(`Name`, `RegisterTenant`, `ServiceName`, `Services`).
-/

/-- Modelled from the spec: a Service, identified by `name`, carrying its
`registerTenant`. -/
structure Service where
  name : String
  registerTenant : String
deriving DecidableEq, Repr

/-- Modelled from the spec: a ServiceInstanceSpec, identified by
(`serviceName`, `instanceID`). -/
structure ServiceInstanceSpec where
  serviceName : String
  instanceID : String
deriving DecidableEq, Repr

/-- Modelled from the spec: a ServiceInstanceStatus, identified by
(`serviceName`, `instanceID`). -/
structure ServiceInstanceStatus where
  serviceName : String
  instanceID : String
deriving DecidableEq, Repr

/-- Modelled from the spec: a Tenant, identified by `name`, carrying its
member service names. -/
structure Tenant where
  name : String
  services : List String
deriving DecidableEq, Repr

/-- Modelled from the spec: an Ingress, identified by `name`. -/
structure Ingress where
  name : String
deriving DecidableEq, Repr

/-- Modelled from the spec: the distinguished global tenant name
(`spec.GlobalTenant`). -/
def GlobalTenant : String := "GLOBAL"

/-- Go zero value of `spec.Service` (all fields empty). -/
def zeroService : Service := { name := "", registerTenant := "" }

/-! ### The Store

The Store is external (§2 component C); it is modelled as an association
list from keys to payload strings, first binding wins, as the spec's
opaque KV interface prescribes: get / put / delete / prefix scan.
-/

/-- The replicated KV store, modelled as an association list. -/
abbrev Store := List (String × String)

/-- `Store.Get`: the payload at `key`, if present. -/
def storeGet (st : Store) (key : String) : Option String :=
  st.lookup key

/-- `Store.Put`: bind `key` to `value`, replacing any previous binding. -/
def storePut (st : Store) (key value : String) : Store :=
  (key, value) :: st.filter (fun kv => kv.fst ≠ key)

/-- `Store.Delete`: remove the binding at `key`. -/
def storeDelete (st : Store) (key : String) : Store :=
  st.filter (fun kv => kv.fst ≠ key)

/-- `Store.GetRawPrefix`: all entries whose key starts with `pre`
(prefix compared on the character sequences). -/
def getRawPrefix (st : Store) (pre : String) : List (String × String) :=
  st.filter (fun kv => pre.data.isPrefixOf kv.fst.data)

/-! ### Repository (`service.Service`, src/unnamed/part_000)

Each list operation iterates the raw records under a prefix, decoding
each; a record that fails to decode is logged and skipped (`continue`).
The decode function (yaml unmarshal) is a parameter.
-/

/-- The decode-and-append loop shared by every `List*` repository method
(`for _, v := range kvs { ... if err != nil { continue } ... append }`). -/
def decodeLoop (dec : String → Option α) : List (String × String) → List α
  | [] => []
  | kv :: rest =>
    match dec kv.snd with
    | none => decodeLoop dec rest
    | some v => v :: decodeLoop dec rest

/-- `Service.ListServiceSpecs`: scan the service spec prefix and decode
each record, skipping failures. -/
def ListServiceSpecs (dec : String → Option Service) (st : Store) : List Service :=
  decodeLoop dec (getRawPrefix st ServiceSpecPrefix)

/-- `Service.listServiceInstanceStatuses` (the shared worker of
`ListAllServiceInstanceStatuses` and `ListServiceInstanceStatuses`):
chooses the scan prefix from `all`/`serviceName`, then decodes each
record under it. The non-`all` branch uses
`layout.ServiceInstanceSpecPrefix(serviceName)`, exactly as the source
does. -/
def listServiceInstanceStatuses (dec : String → Option ServiceInstanceStatus)
    (st : Store) (all : Bool) (serviceName : String) : List ServiceInstanceStatus :=
  let pre := if all then AllServiceInstanceStatusPrefix
             else ServiceInstanceSpecPrefix serviceName
  decodeLoop dec (getRawPrefix st pre)

/-- `Service.ListServiceInstanceStatuses(serviceName)`. -/
def ListServiceInstanceStatuses (dec : String → Option ServiceInstanceStatus)
    (st : Store) (serviceName : String) : List ServiceInstanceStatus :=
  listServiceInstanceStatuses dec st false serviceName

/-- `Service.ListAllServiceInstanceStatuses()`. -/
def ListAllServiceInstanceStatuses (dec : String → Option ServiceInstanceStatus)
    (st : Store) : List ServiceInstanceStatus :=
  listServiceInstanceStatuses dec st true ""

/-- `Service.PutServiceSpec`: marshal and put at the service spec key. -/
def PutServiceSpec (enc : Service → String) (st : Store) (serviceSpec : Service) : Store :=
  storePut st (ServiceSpecKey serviceSpec.name) (enc serviceSpec)

/-- `Service.GetServiceSpecWithInfo`: raw get at the service spec key;
`some none` models the key-missing return, `some (some v)` a successful
decode, and `none` the decode-failure panic (bug-class, §7). -/
def GetServiceSpecWithInfo (dec : String → Option Service) (st : Store)
    (serviceName : String) : Option (Option Service) :=
  match storeGet st (ServiceSpecKey serviceName) with
  | none => some none
  | some raw =>
    match dec raw with
    | none => none
    | some v => some (some v)

/-- `Service.GetServiceSpec`: `GetServiceSpecWithInfo` dropping the raw
record. -/
def GetServiceSpec (dec : String → Option Service) (st : Store)
    (serviceName : String) : Option (Option Service) :=
  GetServiceSpecWithInfo dec st serviceName

/-- `Service.DeleteServiceSpec`: delete at the service spec key. -/
def DeleteServiceSpec (st : Store) (serviceName : String) : Store :=
  storeDelete st (ServiceSpecKey serviceName)

/-! ### Informer (`informer.meshInformer`, informer.go)

State: the caller-scoping `service`, the two tenant indices
(`globalServices : map[string]bool`, `service2Tenants : map[string]string`,
both modelled as lists), the `closed` flag, and the set of registered
syncer keys (the domain of `syncers map[string]*cluster.Syncer`; which
syncer object sits behind a key plays no role in the embedded logic).
-/

/-- The event kind `EventUpdate`. -/
def EventUpdate : String := "Update"

/-- The event kind `EventDelete`. -/
def EventDelete : String := "Delete"

/-- A raw store record (`mvccpb.KeyValue`), reduced to the fields the
informer reads. -/
structure KeyValue where
  key : String
  value : String
deriving DecidableEq, Repr

/-- `informer.Event`: event type plus the raw record (nil on delete). -/
structure Event where
  eventType : String
  rawKV : Option KeyValue
deriving DecidableEq, Repr

/-- A gjson selector path (`informer.GJSONPath`). -/
abbrev GJSONPath := String

/-- Informer lifecycle errors (`ErrAlreadyWatched`, `ErrClosed`). -/
inductive InfError where
  | AlreadyWatched
  | Closed
deriving DecidableEq, Repr

/-- `informer.meshInformer`'s mutable state. -/
structure InformerState where
  service : String
  globalServices : List String
  service2Tenants : List (String × String)
  closed : Bool
  syncers : List String
deriving DecidableEq, Repr

/-- Go `map[string]string` read with its zero default: the mapped value,
or `""` when the key is absent. -/
def lookupS2T (s2t : List (String × String)) (key : String) : String :=
  match s2t.lookup key with
  | some v => v
  | none => ""

/-- `informer.updateGlobalServices`'s scan: the first record that decodes
to a tenant named `GlobalTenant` (decode failures are skipped, other
tenants are passed over). -/
def findGlobalTenant (decT : String → Option Tenant) :
    List (String × String) → Option Tenant
  | [] => none
  | kv :: rest =>
    match decT kv.snd with
    | none => findGlobalTenant decT rest
    | some t =>
      if t.name = GlobalTenant then some t else findGlobalTenant decT rest

/-- `informer.updateGlobalServices`: if some record decodes to the GLOBAL
tenant, replace `globalServices` by its member set; otherwise leave the
state untouched. Always continues watching (`true`). -/
def updateGlobalServices (decT : String → Option Tenant)
    (inf : InformerState) (kvs : List (String × String)) : InformerState × Bool :=
  match findGlobalTenant decT kvs with
  | none => (inf, true)
  | some t => ({ inf with globalServices := t.services }, true)

/-- `informer.buildServiceToTenantMap`: rebuild `service2Tenants` from a
service snapshot, skipping undecodable records. -/
def buildServiceToTenantMap (decS : String → Option Service)
    (inf : InformerState) (kvs : List (String × String)) : InformerState × Bool :=
  let s2t := kvs.foldr
    (fun kv acc =>
      match decS kv.snd with
      | none => acc
      | some service => (service.name, service.registerTenant) :: acc)
    []
  ({ inf with service2Tenants := s2t }, true)

/-- `informer.stopSyncOneKey`: when a syncer is registered under `key`,
close it and delete the registration; otherwise do nothing. -/
def stopSyncOneKey (inf : InformerState) (key : String) : InformerState :=
  if inf.syncers.contains key then
    { inf with syncers := inf.syncers.filter (fun k => k ≠ key) }
  else inf

/-- `informer.onSpecPart`: single-key watch registration. Rejects when
closed, rejects a duplicate syncer key, otherwise records the syncer.
An error leaves the state unchanged. -/
def onSpecPart (inf : InformerState) (storeKey syncerKey : String) :
    InformerState × Option InfError :=
  if inf.closed then (inf, some .Closed)
  else if inf.syncers.contains syncerKey then (inf, some .AlreadyWatched)
  else ({ inf with syncers := inf.syncers ++ [syncerKey] }, none)

/-- `informer.onSpecs`: prefix watch registration; same checks as
`onSpecPart`. -/
def onSpecs (inf : InformerState) (storePre syncerKey : String) :
    InformerState × Option InfError :=
  if inf.closed then (inf, some .Closed)
  else if inf.syncers.contains syncerKey then (inf, some .AlreadyWatched)
  else ({ inf with syncers := inf.syncers ++ [syncerKey] }, none)

/-- `informer.Close`: close every syncer and mark the informer closed
(the syncer map itself is not cleared by the source). -/
def Close (inf : InformerState) : InformerState :=
  { inf with closed := true }

/-! ### Syncer keys and the registration methods -/

/-- `informer.serviceSpecSyncerKey`. -/
def serviceSpecSyncerKey (serviceName : String) (gjsonPath : GJSONPath) : String :=
  "service-spec-" ++ serviceName ++ "-" ++ gjsonPath

/-- The syncer key built inline by `OnPartOfServiceInstanceSpec`. -/
def serviceInstanceSpecPartSyncerKey (serviceName instanceID : String)
    (gjsonPath : GJSONPath) : String :=
  "service-instance-spec-" ++ serviceName ++ "-" ++ instanceID ++ "-" ++ gjsonPath

/-- The syncer key built inline by `OnPartOfServiceInstanceStatus`. -/
def serviceInstanceStatusPartSyncerKey (serviceName instanceID : String)
    (gjsonPath : GJSONPath) : String :=
  "service-instance-status-" ++ serviceName ++ "-" ++ instanceID ++ "-" ++ gjsonPath

/-- The syncer key built inline by `OnPartOfTenantSpec`: the tenant name
only — the gjson path does not enter it. -/
def tenantPartSyncerKey (tenant : String) : String :=
  "tenant-" ++ tenant

/-- The syncer key built inline by `OnPartOfIngressSpec`: the ingress name
only — the gjson path does not enter it. -/
def ingressPartSyncerKey (ingress : String) : String :=
  "ingress-" ++ ingress

/-- `informer.serviceInstanceSpecSyncerKey` (prefix watch). -/
def serviceInstanceSpecSyncerKey (serviceName : String) : String :=
  "prefix-service-instance-spec-" ++ serviceName

/-- `informer.OnPartOfServiceSpec`, registration effect. -/
def OnPartOfServiceSpec (inf : InformerState) (serviceName : String)
    (gjsonPath : GJSONPath) : InformerState × Option InfError :=
  onSpecPart inf (ServiceSpecKey serviceName) (serviceSpecSyncerKey serviceName gjsonPath)

/-- `informer.StopWatchServiceSpec`. -/
def StopWatchServiceSpec (inf : InformerState) (serviceName : String)
    (gjsonPath : GJSONPath) : InformerState :=
  stopSyncOneKey inf (serviceSpecSyncerKey serviceName gjsonPath)

/-- `informer.OnPartOfServiceInstanceSpec`, registration effect. -/
def OnPartOfServiceInstanceSpec (inf : InformerState)
    (serviceName instanceID : String) (gjsonPath : GJSONPath) :
    InformerState × Option InfError :=
  onSpecPart inf (ServiceInstanceSpecKey serviceName instanceID)
    (serviceInstanceSpecPartSyncerKey serviceName instanceID gjsonPath)

/-- `informer.OnPartOfServiceInstanceStatus`, registration effect. -/
def OnPartOfServiceInstanceStatus (inf : InformerState)
    (serviceName instanceID : String) (gjsonPath : GJSONPath) :
    InformerState × Option InfError :=
  onSpecPart inf (ServiceInstanceStatusKey serviceName instanceID)
    (serviceInstanceStatusPartSyncerKey serviceName instanceID gjsonPath)

/-- `informer.OnPartOfTenantSpec`, registration effect. -/
def OnPartOfTenantSpec (inf : InformerState) (tenant : String)
    (gjsonPath : GJSONPath) : InformerState × Option InfError :=
  onSpecPart inf (TenantSpecKey tenant) (tenantPartSyncerKey tenant)

/-- `informer.OnPartOfIngressSpec`, registration effect. -/
def OnPartOfIngressSpec (inf : InformerState) (ingress : String)
    (gjsonPath : GJSONPath) : InformerState × Option InfError :=
  onSpecPart inf (IngressSpecKey ingress) (ingressPartSyncerKey ingress)

/-- `informer.OnAllServiceSpecs`, registration effect. -/
def OnAllServiceSpecs (inf : InformerState) : InformerState × Option InfError :=
  onSpecs inf ServiceSpecPrefix "prefix-service"

/-- `informer.OnServiceInstanceSpecs`, registration effect. -/
def OnServiceInstanceSpecs (inf : InformerState) (serviceName : String) :
    InformerState × Option InfError :=
  onSpecs inf (ServiceInstanceSpecPrefix serviceName)
    (serviceInstanceSpecSyncerKey serviceName)

/-- `informer.OnAllServiceInstanceSpecs`, registration effect. -/
def OnAllServiceInstanceSpecs (inf : InformerState) : InformerState × Option InfError :=
  onSpecs inf AllServiceInstanceSpecPrefix "prefix-service-instance"

/-- `informer.StopWatchServiceInstanceSpec`. -/
def StopWatchServiceInstanceSpec (inf : InformerState) (serviceName : String) :
    InformerState :=
  stopSyncOneKey inf (serviceInstanceSpecSyncerKey serviceName)

/-- `informer.OnServiceInstanceStatuses`, registration effect. -/
def OnServiceInstanceStatuses (inf : InformerState) (serviceName : String) :
    InformerState × Option InfError :=
  onSpecs inf (ServiceInstanceStatusPrefix serviceName)
    ("prefix-service-instance-status-" ++ serviceName)

/-- `informer.OnAllServiceInstanceStatuses`, registration effect. -/
def OnAllServiceInstanceStatuses (inf : InformerState) : InformerState × Option InfError :=
  onSpecs inf AllServiceInstanceStatusPrefix "prefix-service-instance-status"

/-- `informer.OnAllTenantSpecs`, registration effect. -/
def OnAllTenantSpecs (inf : InformerState) : InformerState × Option InfError :=
  onSpecs inf TenantPrefix "prefix-tenant"

/-- `informer.OnAllIngressSpecs`, registration effect. -/
def OnAllIngressSpecs (inf : InformerState) : InformerState × Option InfError :=
  onSpecs inf IngressPrefix "prefix-ingress"

/-! ### Tenant filtering of prefix snapshots

Each of the three tenant-scoped prefix callbacks computes
`tenant := s2t[inf.service]` when `len(inf.service) > 0 && !gs[inf.service]`
(else leaves it `""`), then retains a decodable entry when
`len(tenant) == 0 || gs[name] || <its tenant> == tenant`.
-/

/-- The `tenant` local computed at the head of `OnAllServiceSpecs`,
`onServiceInstanceSpecs` and `onServiceInstanceStatuses`. -/
def visibleTenant (inf : InformerState) : String :=
  if 0 < inf.service.length ∧ ¬inf.globalServices.contains inf.service then
    lookupS2T inf.service2Tenants inf.service
  else ""

/-- The decode-filter-insert loop shared by the three tenant-scoped
prefix callbacks (`for k, v := range kvs { decode; if err continue;
if <keep> { out[k] = e } }`). -/
def retainLoop (dec : String → Option α) (keep : α → Bool) :
    List (String × String) → List (String × α)
  | [] => []
  | (k, v) :: rest =>
    match dec v with
    | none => retainLoop dec keep rest
    | some e =>
      if keep e then (k, e) :: retainLoop dec keep rest
      else retainLoop dec keep rest

/-- The retention test of `OnAllServiceSpecs`'s callback:
`len(tenant) == 0 || gs[service.Name] || service.RegisterTenant == tenant`. -/
def serviceSpecKeep (gs : List String) (tenant : String) (service : Service) : Bool :=
  tenant.length == 0 || gs.contains service.name || service.registerTenant == tenant

/-- The map handed to the callback by `OnAllServiceSpecs`. -/
def onAllServiceSpecsSnapshot (decS : String → Option Service)
    (inf : InformerState) (kvs : List (String × String)) : List (String × Service) :=
  retainLoop decS (serviceSpecKeep inf.globalServices (visibleTenant inf)) kvs

/-- The retention test of `onServiceInstanceSpecs`' and
`onServiceInstanceStatuses`' callbacks, on the entry's service name:
`len(tenant) == 0 || gs[name] || s2t[name] == tenant`. -/
def instanceKeep (gs : List String) (s2t : List (String × String))
    (tenant serviceName : String) : Bool :=
  tenant.length == 0 || gs.contains serviceName || lookupS2T s2t serviceName == tenant

/-- The map handed to the callback by `onServiceInstanceSpecs`. -/
def onServiceInstanceSpecsSnapshot (decIS : String → Option ServiceInstanceSpec)
    (inf : InformerState) (kvs : List (String × String)) :
    List (String × ServiceInstanceSpec) :=
  retainLoop decIS
    (fun instanceSpec =>
      instanceKeep inf.globalServices inf.service2Tenants (visibleTenant inf)
        instanceSpec.serviceName)
    kvs

/-- The map handed to the callback by `onServiceInstanceStatuses`. -/
def onServiceInstanceStatusesSnapshot (decST : String → Option ServiceInstanceStatus)
    (inf : InformerState) (kvs : List (String × String)) :
    List (String × ServiceInstanceStatus) :=
  retainLoop decST
    (fun instanceStatus =>
      instanceKeep inf.globalServices inf.service2Tenants (visibleTenant inf)
        instanceStatus.serviceName)
    kvs

/-! ### The single-key sync loop -/

/-- The event a stream element is translated to by `meshInformer.sync`:
a nil record becomes `EventDelete` (no raw record), a non-nil record
becomes `EventUpdate` carrying it. -/
def elemEvent : Option KeyValue → Event
  | none => { eventType := EventDelete, rawKV := none }
  | some kv => { eventType := EventUpdate, rawKV := some kv }

/-- The value string handed on by `meshInformer.sync`: empty for a nil
record, the record's value otherwise. -/
def elemValue : Option KeyValue → String
  | none => ""
  | some kv => kv.value

/-- `meshInformer.sync`: consume the stream elements in order; each one
is translated to an event and handed to `fn`; when `fn` returns `false`
the watch is stopped (`stopSyncOneKey`), and the loop moves on to the
next element already in the stream. Returns the final informer state and
the list of `fn` invocations made. -/
def sync (inf : InformerState) (syncerKey : String)
    (fn : Event → String → Bool) :
    List (Option KeyValue) → InformerState × List (Event × String)
  | [] => (inf, [])
  | kv :: rest =>
    let ev := elemEvent kv
    let value := elemValue kv
    let inf2 := if fn ev value then inf else stopSyncOneKey inf syncerKey
    let res := sync inf2 syncerKey fn rest
    (res.fst, (ev, value) :: res.snd)

/-- The typed wrapper `OnPartOfServiceSpec` builds around a user callback:
on a non-delete event decode the value (an undecodable value is logged
and skipped, continuing the watch); the user callback receives the
decoded service, or the zero value on delete. -/
def serviceSpecPartFn (decS : String → Option Service)
    (fn : Event → Service → Bool) (event : Event) (value : String) : Bool :=
  if event.eventType ≠ EventDelete then
    match decS value with
    | none => true
    | some serviceSpec => fn event serviceSpec
  else fn event zeroService

/-! ### Helper lemmas -/

theorem string_append_right_inj (a : String) {p q : String}
    (h : a ++ p = a ++ q) : p = q := by
  have hd : (a ++ p).data = (a ++ q).data := congrArg String.data h
  simp [String.data_append] at hd
  exact String.ext hd

theorem string_length_zero {s : String} (h : s.length = 0) : s = "" := by
  cases s with
  | mk data =>
    simp [String.length] at h
    simp [h]

theorem lookup_filter_ne (l : List (String × String)) (k : String) :
    (l.filter (fun kv => kv.fst ≠ k)).lookup k = none := by
  induction l with
  | nil => rfl
  | cons kv rest ih =>
    rcases kv with ⟨a, b⟩
    by_cases hk : a = k
    · simpa [List.filter, hk] using ih
    · have hstep : (((a, b) :: rest).filter (fun kv => kv.fst ≠ k)) =
          (a, b) :: rest.filter (fun kv => kv.fst ≠ k) := by
        simp [List.filter, hk]
      rw [hstep, List.lookup]
      have hbeq : (k == a) = false := by
        simp [beq_iff_eq]
        exact fun h => hk h.symm
      rw [hbeq]
      exact ih

theorem contains_filter_ne (l : List String) (k : String) :
    (l.filter (fun x => x ≠ k)).contains k = false := by
  induction l with
  | nil => rfl
  | cons a rest ih =>
    by_cases hk : a = k
    · simpa [List.filter, hk] using ih
    · have hstep : ((a :: rest).filter (fun x => x ≠ k)) =
          a :: rest.filter (fun x => x ≠ k) := by
        simp [List.filter, hk]
      rw [hstep]
      simp only [List.contains_cons, ih, Bool.or_false]
      simp [beq_iff_eq]
      exact fun h => hk h.symm

theorem decodeLoop_eq_filterMap (dec : String → Option α)
    (kvs : List (String × String)) :
    decodeLoop dec kvs = kvs.filterMap (fun kv => dec kv.snd) := by
  induction kvs with
  | nil => rfl
  | cons kv rest ih =>
    cases hdec : dec kv.snd with
    | none => simp [decodeLoop, hdec, List.filterMap_cons, ih]
    | some v => simp [decodeLoop, hdec, List.filterMap_cons, ih]

theorem mem_retainLoop {α : Type} [DecidableEq α] (dec : String → Option α)
    (keep : α → Bool) (kvs : List (String × String)) (k : String) (e : α) :
    (k, e) ∈ retainLoop dec keep kvs ↔
      ∃ v, (k, v) ∈ kvs ∧ dec v = some e ∧ keep e = true := by
  induction kvs with
  | nil => simp [retainLoop]
  | cons kv rest ih =>
    rcases kv with ⟨k1, v1⟩
    cases hdec : dec v1 with
    | none =>
      simp only [retainLoop, hdec]
      rw [ih]
      constructor
      · rintro ⟨v, hv, hdv, hk⟩
        exact ⟨v, List.mem_cons_of_mem _ hv, hdv, hk⟩
      · rintro ⟨v, hv, hdv, hk⟩
        rcases List.mem_cons.mp hv with heq | hv2
        · rcases Prod.mk.injEq .. ▸ heq with ⟨hk1, hv1⟩
          rw [hv1] at hdv
          rw [hdv] at hdec
          cases hdec
        · exact ⟨v, hv2, hdv, hk⟩
    | some e1 =>
      simp only [retainLoop, hdec]
      by_cases hkeep : keep e1 = true
      · rw [if_pos hkeep]
        constructor
        · intro hmem
          rcases List.mem_cons.mp hmem with heq | hmem2
          · rcases Prod.mk.injEq .. ▸ heq with ⟨hk1, he1⟩
            refine ⟨v1, ?_, ?_, ?_⟩
            · rw [hk1]; exact List.mem_cons_self _ _
            · rw [he1]; exact hdec
            · rw [he1]; exact hkeep
          · obtain ⟨v, hv, hdv, hk⟩ := ih.mp hmem2
            exact ⟨v, List.mem_cons_of_mem _ hv, hdv, hk⟩
        · rintro ⟨v, hv, hdv, hk⟩
          rcases List.mem_cons.mp hv with heq | hv2
          · rcases Prod.mk.injEq .. ▸ heq with ⟨hk1, hv1⟩
            rw [hv1] at hdv
            rw [hdv] at hdec
            cases hdec
            exact hk1 ▸ List.mem_cons_self _ _
          · exact List.mem_cons_of_mem _ (ih.mpr ⟨v, hv2, hdv, hk⟩)
      · rw [if_neg hkeep]
        rw [ih]
        constructor
        · rintro ⟨v, hv, hdv, hk⟩
          exact ⟨v, List.mem_cons_of_mem _ hv, hdv, hk⟩
        · rintro ⟨v, hv, hdv, hk⟩
          rcases List.mem_cons.mp hv with heq | hv2
          · rcases Prod.mk.injEq .. ▸ heq with ⟨hk1, hv1⟩
            rw [hv1] at hdv
            rw [hdv] at hdec
            cases hdec
            exact absurd hk hkeep
          · exact ⟨v, hv2, hdv, hk⟩

theorem retainLoop_all_kept {α : Type} (dec : String → Option α) (keep : α → Bool)
    (hall : ∀ e, keep e = true) (kvs : List (String × String)) :
    retainLoop dec keep kvs =
      kvs.filterMap (fun kv => (dec kv.snd).map (fun e => (kv.fst, e))) := by
  induction kvs with
  | nil => rfl
  | cons kv rest ih =>
    rcases kv with ⟨k1, v1⟩
    cases hdec : dec v1 with
    | none => simp [retainLoop, hdec, List.filterMap_cons, ih]
    | some e1 => simp [retainLoop, hdec, hall, List.filterMap_cons, ih]

theorem serviceSpecKeep_iff (gs : List String) (tenant : String) (e : Service)
    (hlen : tenant.length ≠ 0) :
    serviceSpecKeep gs tenant e = true ↔
      (gs.contains e.name = true ∨ e.registerTenant = tenant) := by
  simp [serviceSpecKeep, Bool.or_eq_true, hlen, beq_iff_eq]

theorem instanceKeep_iff (gs : List String) (s2t : List (String × String))
    (tenant serviceName : String) (hlen : tenant.length ≠ 0) :
    instanceKeep gs s2t tenant serviceName = true ↔
      (gs.contains serviceName = true ∨ lookupS2T s2t serviceName = tenant) := by
  simp [instanceKeep, Bool.or_eq_true, hlen, beq_iff_eq]

theorem sync_trace_eq_map (key : String) (g : Event → String → Bool)
    (stream : List (Option KeyValue)) : ∀ inf : InformerState,
    (sync inf key g stream).snd = stream.map (fun el => (elemEvent el, elemValue el)) := by
  induction stream with
  | nil => intro inf; rfl
  | cons el rest ih => intro inf; simp [sync, ih]

theorem findGlobalTenant_eq_none (decT : String → Option Tenant)
    (kvs : List (String × String))
    (h : ∀ kv ∈ kvs, ∀ t, decT kv.snd = some t → t.name ≠ GlobalTenant) :
    findGlobalTenant decT kvs = none := by
  induction kvs with
  | nil => rfl
  | cons kv rest ih =>
    have hrest : findGlobalTenant decT rest = none :=
      ih (fun kv hkv t ht => h kv (List.mem_cons_of_mem _ hkv) t ht)
    cases hdec : decT kv.snd with
    | none => simpa [findGlobalTenant, hdec] using hrest
    | some t =>
      have hne : t.name ≠ GlobalTenant := h kv (List.mem_cons_self _ _) t hdec
      simpa [findGlobalTenant, hdec, hne] using hrest

/-! ### Claim C1 -/

/-- Decoder used to exhibit C1's failing input: one recognizable status
payload and one recognizable instance-spec payload. -/
def c1dec : String → Option ServiceInstanceStatus := fun s =>
  if s = "status-payload" then some { serviceName := "orders", instanceID := "i1" }
  else if s = "spec-payload" then some { serviceName := "orders", instanceID := "i1spec" }
  else none

/-- C1's failing input: a status record under the status prefix and an
instance-spec record under the spec prefix, both for service `orders`. -/
def c1store : Store :=
  [(ServiceInstanceStatusKey "orders" "i1", "status-payload"),
   (ServiceInstanceSpecKey "orders" "i1", "spec-payload")]

/-- C1: evaluating the code at the failing input. The claim says
`ListServiceInstanceStatuses("orders")` scans the service-instance
STATUS prefix `/service-instances/status/orders/`; the code's non-`all`
branch instead scans `layout.ServiceInstanceSpecPrefix("orders")`
(`/service-instances/spec/orders/`), so it misses the status record and
returns the instance-spec record decoded as a status, while the `all`
branch (`ListAllServiceInstanceStatuses`) correctly returns the status
record. -/
theorem statusListScansSpecPrefix :
    ListServiceInstanceStatuses c1dec c1store "orders" =
      [{ serviceName := "orders", instanceID := "i1spec" }] ∧
    ListAllServiceInstanceStatuses c1dec c1store =
      [{ serviceName := "orders", instanceID := "i1" }] ∧
    decodeLoop c1dec (getRawPrefix c1store (ServiceInstanceStatusPrefix "orders")) =
      [{ serviceName := "orders", instanceID := "i1" }] := by
  refine ⟨by decide, by decide, by decide⟩

/-! ### Claim C6 -/

/-- C6: against the Store modelled as a key-value map, for every Service
`v` whose canonical serialization decodes back to `v`, after
`PutServiceSpec v` a `GetServiceSpec v.name` returns `v`; and after
`DeleteServiceSpec name`, `GetServiceSpec name` returns absent. -/
theorem putGet_deleteGet_serviceSpec (enc : Service → String)
    (dec : String → Option Service) (st : Store) (v : Service)
    (hv : dec (enc v) = some v) (name : String) :
    GetServiceSpec dec (PutServiceSpec enc st v) v.name = some (some v) ∧
    GetServiceSpec dec (DeleteServiceSpec st name) name = some none := by
  constructor
  · simp [GetServiceSpec, GetServiceSpecWithInfo, PutServiceSpec, storeGet,
      storePut, List.lookup, hv]
  · simp only [GetServiceSpec, GetServiceSpecWithInfo, DeleteServiceSpec,
      storeDelete, storeGet]
    rw [lookup_filter_ne]

/-- A concrete codec for C6's witness. -/
def c6enc : Service → String := fun v => v.name ++ "|" ++ v.registerTenant

/-- A concrete decoder for C6's witness, inverting `c6enc` at the
witness's service value. -/
def c6dec : String → Option Service := fun s =>
  if s = "orders|retail" then some { name := "orders", registerTenant := "retail" }
  else none

/-- Witness for C6 at the service `orders`/`retail` and a one-record
store. -/
theorem putGet_deleteGet_serviceSpec_witness :
    GetServiceSpec c6dec
        (PutServiceSpec c6enc [(ServiceSpecKey "stale", "x")]
          { name := "orders", registerTenant := "retail" })
        "orders" =
      some (some { name := "orders", registerTenant := "retail" }) ∧
    GetServiceSpec c6dec
        (DeleteServiceSpec [(ServiceSpecKey "stale", "x")] "stale") "stale" =
      some none :=
  putGet_deleteGet_serviceSpec c6enc c6dec [(ServiceSpecKey "stale", "x")]
    { name := "orders", registerTenant := "retail" } (by decide) "stale"

/-! ### Claim C7 -/

/-- C7: with the informer open and a watch already registered under
syncer key `K`, a second registration — single-key (`onSpecPart`) or
prefix (`onSpecs`) — returns `AlreadyWatched` and leaves the state
unchanged; moreover, immediately after a successful registration of `K`,
re-registering `K` returns `AlreadyWatched` and keeps the new state. -/
theorem secondRegistrationAlreadyWatched (inf : InformerState)
    (storeKey storePre K : String) (hopen : inf.closed = false)
    (hreg : inf.syncers.contains K = true) :
    onSpecPart inf storeKey K = (inf, some InfError.AlreadyWatched) ∧
    onSpecs inf storePre K = (inf, some InfError.AlreadyWatched) ∧
    (∀ inf2 : InformerState, inf2.closed = false →
      onSpecPart (onSpecPart inf2 storeKey K).fst storeKey K =
        ((onSpecPart inf2 storeKey K).fst, some InfError.AlreadyWatched)) := by
  have hK : K ∈ inf.syncers := by simpa using hreg
  refine ⟨by simp [onSpecPart, hopen, hK], by simp [onSpecs, hopen, hK], ?_⟩
  intro inf2 hopen2
  by_cases hc : K ∈ inf2.syncers
  · simp [onSpecPart, hopen2, hc]
  · have happ : K ∈ inf2.syncers ++ [K] :=
      List.mem_append_right _ (List.mem_singleton.mpr rfl)
    simp [onSpecPart, hopen2, hc, happ]

/-- Witness for C7: a one-watch informer rejecting the duplicate. -/
theorem secondRegistrationAlreadyWatched_witness :
    onSpecPart
        { service := "", globalServices := [], service2Tenants := [],
          closed := false, syncers := ["k1"] }
        "/services/spec/orders" "k1" =
      ({ service := "", globalServices := [], service2Tenants := [],
         closed := false, syncers := ["k1"] }, some InfError.AlreadyWatched) ∧
    onSpecs
        { service := "", globalServices := [], service2Tenants := [],
          closed := false, syncers := ["k1"] }
        "/services/spec/" "k1" =
      ({ service := "", globalServices := [], service2Tenants := [],
         closed := false, syncers := ["k1"] }, some InfError.AlreadyWatched) := by
  have h := secondRegistrationAlreadyWatched
    { service := "", globalServices := [], service2Tenants := [],
      closed := false, syncers := ["k1"] }
    "/services/spec/orders" "/services/spec/" "k1" (by decide) (by decide)
  exact ⟨h.1, h.2.1⟩

/-! ### Claim C8 -/

/-- C8: stopping is idempotent and `Close` is terminal. Stopping a syncer
key with no registration (in particular a second consecutive stop) leaves
the state unchanged, and after `Close` every watch-registration method
returns `Closed` without registering a syncer. -/
theorem stopIdempotent_closeTerminal (inf : InformerState)
    (key n i t sName iID : String) (p : GJSONPath) :
    (inf.syncers.contains key = false → stopSyncOneKey inf key = inf) ∧
    stopSyncOneKey (stopSyncOneKey inf key) key = stopSyncOneKey inf key ∧
    OnPartOfServiceSpec (Close inf) n p = (Close inf, some InfError.Closed) ∧
    OnPartOfServiceInstanceSpec (Close inf) sName iID p = (Close inf, some InfError.Closed) ∧
    OnPartOfServiceInstanceStatus (Close inf) sName iID p = (Close inf, some InfError.Closed) ∧
    OnPartOfTenantSpec (Close inf) t p = (Close inf, some InfError.Closed) ∧
    OnPartOfIngressSpec (Close inf) i p = (Close inf, some InfError.Closed) ∧
    OnAllServiceSpecs (Close inf) = (Close inf, some InfError.Closed) ∧
    OnServiceInstanceSpecs (Close inf) sName = (Close inf, some InfError.Closed) ∧
    OnAllServiceInstanceSpecs (Close inf) = (Close inf, some InfError.Closed) ∧
    OnServiceInstanceStatuses (Close inf) sName = (Close inf, some InfError.Closed) ∧
    OnAllServiceInstanceStatuses (Close inf) = (Close inf, some InfError.Closed) ∧
    OnAllTenantSpecs (Close inf) = (Close inf, some InfError.Closed) ∧
    OnAllIngressSpecs (Close inf) = (Close inf, some InfError.Closed) := by
  refine ⟨?_, ?_, ?_, ?_, ?_, ?_, ?_, ?_, ?_, ?_, ?_, ?_, ?_, ?_⟩
  · intro h
    have hmem : key ∉ inf.syncers := by simpa using h
    simp [stopSyncOneKey, hmem]
  · by_cases hc : key ∈ inf.syncers
    · have h1 : stopSyncOneKey inf key =
          { inf with syncers := inf.syncers.filter (fun k => k ≠ key) } := by
        simp [stopSyncOneKey, hc]
      have h2 : key ∉ inf.syncers.filter (fun k => k ≠ key) := by
        intro hmem
        simpa using (List.mem_filter.mp hmem).2
      rw [h1]
      simp [stopSyncOneKey, h2]
    · have h1 : stopSyncOneKey inf key = inf := by simp [stopSyncOneKey, hc]
      rw [h1, h1]
  all_goals
    simp [OnPartOfServiceSpec, OnPartOfServiceInstanceSpec,
      OnPartOfServiceInstanceStatus, OnPartOfTenantSpec, OnPartOfIngressSpec,
      OnAllServiceSpecs, OnServiceInstanceSpecs, OnAllServiceInstanceSpecs,
      OnServiceInstanceStatuses, OnAllServiceInstanceStatuses, OnAllTenantSpecs,
      OnAllIngressSpecs, onSpecPart, onSpecs, Close]

/-- Witness for C8 on a closed two-watch informer and an unregistered
stop key. -/
theorem stopIdempotent_closeTerminal_witness :
    stopSyncOneKey
        { service := "", globalServices := [], service2Tenants := [],
          closed := false, syncers := ["k1"] } "k2" =
      { service := "", globalServices := [], service2Tenants := [],
        closed := false, syncers := ["k1"] } ∧
    OnAllServiceSpecs
        (Close { service := "", globalServices := [], service2Tenants := [],
                 closed := false, syncers := ["k1"] }) =
      (Close { service := "", globalServices := [], service2Tenants := [],
               closed := false, syncers := ["k1"] }, some InfError.Closed) := by
  have h := stopIdempotent_closeTerminal
    { service := "", globalServices := [], service2Tenants := [],
      closed := false, syncers := ["k1"] }
    "k2" "n" "i" "t" "orders" "id1" ""
  exact ⟨h.1 (by decide), h.2.2.2.2.2.2.2.1⟩

/-! ### Claim C9 -/

/-- C9: a prefix list operation returns exactly the entities decoded from
the records that decode successfully — `ListServiceSpecs` equals the
filter-map of its decoder over the raw records under the prefix — and
inserting a record whose payload fails to decode anywhere in the scanned
batch leaves the result unchanged (the record is skipped, the batch is
not aborted). -/
theorem listSkipsUndecodable (dec : String → Option Service) (st : Store)
    (pre post : List (String × String)) (k bad : String) (hbad : dec bad = none) :
    ListServiceSpecs dec st =
      (getRawPrefix st ServiceSpecPrefix).filterMap (fun kv => dec kv.snd) ∧
    decodeLoop dec (pre ++ (k, bad) :: post) = decodeLoop dec (pre ++ post) := by
  constructor
  · exact decodeLoop_eq_filterMap dec _
  · rw [decodeLoop_eq_filterMap, decodeLoop_eq_filterMap]
    simp [List.filterMap_append, List.filterMap_cons, hbad]

/-- A decoder for C9's witness: rejects the payload `bad`. -/
def c9dec : String → Option Service := fun s =>
  if s = "bad" then none else some { name := s, registerTenant := "" }

/-- Witness for C9: a two-record store with one undecodable payload. -/
theorem listSkipsUndecodable_witness :
    ListServiceSpecs c9dec
        [(ServiceSpecKey "orders", "orders-payload"), (ServiceSpecKey "broken", "bad")] =
      (getRawPrefix
          [(ServiceSpecKey "orders", "orders-payload"), (ServiceSpecKey "broken", "bad")]
          ServiceSpecPrefix).filterMap (fun kv => c9dec kv.snd) ∧
    decodeLoop c9dec
        [(ServiceSpecKey "orders", "orders-payload"), (ServiceSpecKey "broken", "bad")] =
      decodeLoop c9dec [(ServiceSpecKey "orders", "orders-payload")] := by
  have h := listSkipsUndecodable c9dec
    [(ServiceSpecKey "orders", "orders-payload"), (ServiceSpecKey "broken", "bad")]
    [(ServiceSpecKey "orders", "orders-payload")] [] (ServiceSpecKey "broken") "bad"
    (by decide)
  exact ⟨h.1, h.2⟩

/-! ### Claim C2 -/

/-- An informer whose global-services set is already non-empty, as C2's
prior state. -/
def c2inf : InformerState :=
  { service := "selfsvc", globalServices := ["auth"], service2Tenants := [],
    closed := false, syncers := [] }

/-- A tenant decoder recognizing only a non-GLOBAL tenant payload. -/
def c2decT : String → Option Tenant := fun s =>
  if s = "tenant-other" then some { name := "other", services := ["o1"] } else none

/-- C2 (counterexample): a tenant snapshot in which no record decodes to
a Tenant named GLOBAL does not empty the global-services set — the
previous non-empty set `["auth"]` survives unchanged, so the claim that
the set is empty after processing is false. -/
theorem globalSetNotCleared_counterexample :
    (updateGlobalServices c2decT c2inf
        [("/tenants/other", "tenant-other")]).fst.globalServices = ["auth"] ∧
    (updateGlobalServices c2decT c2inf
        [("/tenants/other", "tenant-other")]).fst.globalServices ≠ [] := by
  refine ⟨by decide, by decide⟩

/-- C2 (amended): when no record of the snapshot decodes to a Tenant
named GLOBAL, `updateGlobalServices` leaves the informer's state — in
particular its global-services set — unchanged (it is empty only if it
was already empty), and keeps watching. -/
theorem globalSetUnchangedWithoutGlobal (decT : String → Option Tenant)
    (inf : InformerState) (kvs : List (String × String))
    (h : ∀ kv ∈ kvs, ∀ t, decT kv.snd = some t → t.name ≠ GlobalTenant) :
    (updateGlobalServices decT inf kvs).fst = inf ∧
    (updateGlobalServices decT inf kvs).snd = true := by
  have hnone := findGlobalTenant_eq_none decT kvs h
  constructor
  · simp [updateGlobalServices, hnone]
  · simp [updateGlobalServices, hnone]

/-- Witness for the amended C2 at a concrete snapshot holding one
decodable non-GLOBAL tenant record. -/
theorem globalSetUnchangedWithoutGlobal_witness :
    (updateGlobalServices c2decT c2inf [("/tenants/other", "tenant-other")]).fst = c2inf ∧
    (updateGlobalServices c2decT c2inf [("/tenants/other", "tenant-other")]).snd = true :=
  globalSetUnchangedWithoutGlobal c2decT c2inf [("/tenants/other", "tenant-other")]
    (by
      intro kv hkv t ht
      have hkv2 : kv = ("/tenants/other", "tenant-other") := List.mem_singleton.mp hkv
      subst hkv2
      simp only [c2decT, if_pos rfl] at ht
      rw [← Option.some_inj.mp ht]
      decide)

/-! ### Claim C3 -/

/-- A fresh open informer with no registered watch. -/
def inf0 : InformerState :=
  { service := "", globalServices := [], service2Tenants := [],
    closed := false, syncers := [] }

/-- C3 (counterexample): `OnPartOfTenantSpec` derives its syncerKey from
the tenant name only, so two registrations on tenant `t` with the
distinct gjson paths `loadBalance` and `resilience` share the syncerKey
`tenant-t`: the first succeeds and the second is rejected with
`AlreadyWatched` instead of being accepted as a distinct watch. -/
theorem tenantWatchPathCollision_counterexample :
    tenantPartSyncerKey "t" = "tenant-t" ∧
    (OnPartOfTenantSpec inf0 "t" "loadBalance").snd = none ∧
    (OnPartOfTenantSpec (OnPartOfTenantSpec inf0 "t" "loadBalance").fst
        "t" "resilience").snd = some InfError.AlreadyWatched := by
  refine ⟨rfl, by decide, by decide⟩

/-- C3 (amended): the syncerKey of the service-spec, service-instance-spec
and service-instance-status single-key watches is derived from the
identifiers and the gjson path, so registrations with distinct paths get
distinct syncerKeys and are both accepted; the tenant and ingress
single-key watches derive their syncerKey from the entity name only, so a
second registration with a distinct path collides and returns
`AlreadyWatched`. -/
theorem syncerKeyPathDerivation (s iID t i : String) (p1 p2 : GJSONPath)
    (inf : InformerState) (hopen : inf.closed = false) (hp : p1 ≠ p2)
    (h1 : serviceSpecSyncerKey s p1 ∉ inf.syncers)
    (h2 : serviceSpecSyncerKey s p2 ∉ inf.syncers)
    (h3 : tenantPartSyncerKey t ∉ inf.syncers)
    (h4 : ingressPartSyncerKey i ∉ inf.syncers) :
    serviceSpecSyncerKey s p1 ≠ serviceSpecSyncerKey s p2 ∧
    serviceInstanceSpecPartSyncerKey s iID p1 ≠ serviceInstanceSpecPartSyncerKey s iID p2 ∧
    serviceInstanceStatusPartSyncerKey s iID p1 ≠ serviceInstanceStatusPartSyncerKey s iID p2 ∧
    (OnPartOfServiceSpec inf s p1).snd = none ∧
    (OnPartOfServiceSpec (OnPartOfServiceSpec inf s p1).fst s p2).snd = none ∧
    (OnPartOfTenantSpec inf t p1).snd = none ∧
    (OnPartOfTenantSpec (OnPartOfTenantSpec inf t p1).fst t p2).snd =
      some InfError.AlreadyWatched ∧
    (OnPartOfIngressSpec inf i p1).snd = none ∧
    (OnPartOfIngressSpec (OnPartOfIngressSpec inf i p1).fst i p2).snd =
      some InfError.AlreadyWatched := by
  have hinj1 : serviceSpecSyncerKey s p1 ≠ serviceSpecSyncerKey s p2 :=
    fun h => hp (string_append_right_inj _ h)
  have hinj2 : serviceInstanceSpecPartSyncerKey s iID p1 ≠
      serviceInstanceSpecPartSyncerKey s iID p2 :=
    fun h => hp (string_append_right_inj _ h)
  have hinj3 : serviceInstanceStatusPartSyncerKey s iID p1 ≠
      serviceInstanceStatusPartSyncerKey s iID p2 :=
    fun h => hp (string_append_right_inj _ h)
  have hnot2 : serviceSpecSyncerKey s p2 ∉
      inf.syncers ++ [serviceSpecSyncerKey s p1] := by
    intro hmem
    rcases List.mem_append.mp hmem with hmem2 | hmem2
    · exact h2 hmem2
    · exact hinj1.symm (List.mem_singleton.mp hmem2)
  have htin : tenantPartSyncerKey t ∈ inf.syncers ++ [tenantPartSyncerKey t] :=
    List.mem_append_right _ (List.mem_singleton.mpr rfl)
  have hiin : ingressPartSyncerKey i ∈ inf.syncers ++ [ingressPartSyncerKey i] :=
    List.mem_append_right _ (List.mem_singleton.mpr rfl)
  refine ⟨hinj1, hinj2, hinj3, ?_, ?_, ?_, ?_, ?_, ?_⟩
  · simp [OnPartOfServiceSpec, onSpecPart, hopen, h1]
  · simp [OnPartOfServiceSpec, onSpecPart, hopen, h1, hnot2]
  · simp [OnPartOfTenantSpec, onSpecPart, hopen, h3]
  · simp [OnPartOfTenantSpec, onSpecPart, hopen, h3, htin]
  · simp [OnPartOfIngressSpec, onSpecPart, hopen, h4]
  · simp [OnPartOfIngressSpec, onSpecPart, hopen, h4, hiin]

/-- Witness for the amended C3 on a fresh informer, with the distinct
paths `loadBalance` and `resilience`. -/
theorem syncerKeyPathDerivation_witness :
    serviceSpecSyncerKey "orders" "loadBalance" ≠ serviceSpecSyncerKey "orders" "resilience" ∧
    (OnPartOfServiceSpec (OnPartOfServiceSpec inf0 "orders" "loadBalance").fst
        "orders" "resilience").snd = none ∧
    (OnPartOfTenantSpec (OnPartOfTenantSpec inf0 "t" "loadBalance").fst
        "t" "resilience").snd = some InfError.AlreadyWatched := by
  have h := syncerKeyPathDerivation "orders" "i1" "t" "ing" "loadBalance" "resilience"
    inf0 (by decide) (by decide)
    (by simp [inf0]) (by simp [inf0]) (by simp [inf0]) (by simp [inf0])
  exact ⟨h.1, h.2.2.2.2.1, h.2.2.2.2.2.2.1⟩

/-! ### Claim C4 -/

/-- C4's informer: selfService set, not global, but absent from the
service→tenant map. -/
def c4inf : InformerState :=
  { service := "selfsvc", globalServices := [], service2Tenants := [],
    closed := false, syncers := [] }

/-- C4's service decoder: one payload, for a service of a foreign
tenant. -/
def c4dec : String → Option Service := fun v =>
  if v = "svc-other" then some { name := "other", registerTenant := "t2" } else none

/-- C4 (counterexample): with selfService non-empty and not in
globalServices but unmapped in the service→tenant index, `visibleTenant`
is the empty string and the filter passes everything: an entry whose
service name is not in globalServices and whose tenant differs from
`visibleTenant` is still retained, contradicting the claimed
"if and only if". -/
theorem tenantFilterIff_counterexample :
    0 < c4inf.service.length ∧
    c4inf.globalServices.contains c4inf.service = false ∧
    onAllServiceSpecsSnapshot c4dec c4inf [("k", "svc-other")] =
      [("k", { name := "other", registerTenant := "t2" })] ∧
    c4inf.globalServices.contains "other" = false ∧
    ({ name := "other", registerTenant := "t2" } : Service).registerTenant ≠
      visibleTenant c4inf := by
  refine ⟨by decide, by decide, by decide, by decide, by decide⟩

/-- C4 (amended): when selfService is non-empty, not in globalServices,
and maps to a non-empty tenant, `visibleTenant` is that mapped tenant and
a decodable entry is retained iff its service name is in globalServices
or its tenant (the `registerTenant` for Services, the service→tenant
mapping for instance specs and statuses) equals `visibleTenant`; in
particular globally visible services are always included. -/
theorem tenantFilterIff (decS : String → Option Service)
    (decIS : String → Option ServiceInstanceSpec)
    (decST : String → Option ServiceInstanceStatus)
    (inf : InformerState) (kvs1 kvs2 kvs3 : List (String × String))
    (hs : 0 < inf.service.length)
    (hg : ¬inf.globalServices.contains inf.service)
    (ht : lookupS2T inf.service2Tenants inf.service ≠ "") :
    visibleTenant inf = lookupS2T inf.service2Tenants inf.service ∧
    (∀ k e, (k, e) ∈ onAllServiceSpecsSnapshot decS inf kvs1 ↔
      ∃ v, (k, v) ∈ kvs1 ∧ decS v = some e ∧
        (inf.globalServices.contains e.name = true ∨
          e.registerTenant = visibleTenant inf)) ∧
    (∀ k e, (k, e) ∈ onServiceInstanceSpecsSnapshot decIS inf kvs2 ↔
      ∃ v, (k, v) ∈ kvs2 ∧ decIS v = some e ∧
        (inf.globalServices.contains e.serviceName = true ∨
          lookupS2T inf.service2Tenants e.serviceName = visibleTenant inf)) ∧
    (∀ k e, (k, e) ∈ onServiceInstanceStatusesSnapshot decST inf kvs3 ↔
      ∃ v, (k, v) ∈ kvs3 ∧ decST v = some e ∧
        (inf.globalServices.contains e.serviceName = true ∨
          lookupS2T inf.service2Tenants e.serviceName = visibleTenant inf)) := by
  have hg2 : inf.service ∉ inf.globalServices := by simpa using hg
  have hvt : visibleTenant inf = lookupS2T inf.service2Tenants inf.service := by
    simp [visibleTenant, hs, hg2]
  have hlen : (visibleTenant inf).length ≠ 0 := by
    intro h0
    exact ht (hvt ▸ string_length_zero h0)
  refine ⟨hvt, fun k e => ?_, fun k e => ?_, fun k e => ?_⟩
  · rw [onAllServiceSpecsSnapshot, mem_retainLoop]
    constructor
    · rintro ⟨v, hv, hd, hk⟩
      exact ⟨v, hv, hd, (serviceSpecKeep_iff _ _ _ hlen).mp hk⟩
    · rintro ⟨v, hv, hd, hk⟩
      exact ⟨v, hv, hd, (serviceSpecKeep_iff _ _ _ hlen).mpr hk⟩
  · rw [onServiceInstanceSpecsSnapshot, mem_retainLoop]
    constructor
    · rintro ⟨v, hv, hd, hk⟩
      exact ⟨v, hv, hd, (instanceKeep_iff _ _ _ _ hlen).mp hk⟩
    · rintro ⟨v, hv, hd, hk⟩
      exact ⟨v, hv, hd, (instanceKeep_iff _ _ _ _ hlen).mpr hk⟩
  · rw [onServiceInstanceStatusesSnapshot, mem_retainLoop]
    constructor
    · rintro ⟨v, hv, hd, hk⟩
      exact ⟨v, hv, hd, (instanceKeep_iff _ _ _ _ hlen).mp hk⟩
    · rintro ⟨v, hv, hd, hk⟩
      exact ⟨v, hv, hd, (instanceKeep_iff _ _ _ _ hlen).mpr hk⟩

/-- The informer of C4's and C10's witnesses: selfService `s` in tenant
`T`, service `g` global. -/
def c4winf : InformerState :=
  { service := "s", globalServices := ["g"],
    service2Tenants := [("s", "T"), ("a", "T"), ("g", "gt")],
    closed := false, syncers := [] }

/-- Decoder for C4's witness: a same-tenant service payload. -/
def c4wdec : String → Option Service := fun v =>
  if v = "svc-a" then some { name := "a", registerTenant := "T" } else none

/-- Witness for the amended C4: under a tenant scope `T`, the entry of
the same-tenant service `a` is retained. -/
theorem tenantFilterIff_witness :
    (("k1", { name := "a", registerTenant := "T" }) : String × Service) ∈
      onAllServiceSpecsSnapshot c4wdec c4winf [("k1", "svc-a")] := by
  have h := tenantFilterIff c4wdec (fun _ => none) (fun _ => none) c4winf
    [("k1", "svc-a")] [] [] (by decide) (by decide) (by decide)
  exact (h.2.1 "k1" { name := "a", registerTenant := "T" }).mpr
    ⟨"svc-a", by decide, by decide, Or.inr (by decide)⟩

/-! ### Claim C5 -/

/-- The informer of C5's counterexample, with the watch registered. -/
def c5inf : InformerState :=
  { service := "", globalServices := [], service2Tenants := [],
    closed := false, syncers := ["watch-k"] }

/-- A callback that asks to stop at the first event. -/
def fnFalse : Event → String → Bool := fun _ _ => false

/-- C5 (counterexample): the sync loop's trace is the list of callback
invocations, one per consumed stream element; with a callback returning
`false` at the first element of a two-element stream, the trace still
holds two invocations — the second stream element invokes the callback
after the watch was stopped, contradicting "no later stream element
invokes that callback". -/
theorem syncContinues_counterexample :
    fnFalse (elemEvent (some { key := "k", value := "v1" }))
        (elemValue (some { key := "k", value := "v1" })) = false ∧
    (sync c5inf "watch-k" fnFalse
        [some { key := "k", value := "v1" }, some { key := "k", value := "v2" }]).snd =
      [({ eventType := EventUpdate, rawKV := some { key := "k", value := "v1" } }, "v1"),
       ({ eventType := EventUpdate, rawKV := some { key := "k", value := "v2" } }, "v2")] := by
  refine ⟨rfl, by decide⟩

/-- C5 (amended): a nil stream element is translated to a Delete event
(no raw record, empty value) and the typed callback receives the zero
value; a non-nil element is translated to an Update event carrying the
raw record, and the typed callback receives the decoded entity; when the
callback returns `false` the watch is stopped — the syncer registration
is removed — but the loop continues over the elements already in the
stream, each of which still invokes the callback (the trace maps over the
whole stream). -/
theorem syncEventTranslationAndStop (decS : String → Option Service)
    (fn : Event → Service → Bool) (g : Event → String → Bool)
    (inf : InformerState) (key : String) (stream rest : List (Option KeyValue))
    (el : Option KeyValue) (kv : KeyValue) (e : Event) (v : String) (s : Service) :
    elemEvent none = { eventType := EventDelete, rawKV := none } ∧
    elemValue none = "" ∧
    elemEvent (some kv) = { eventType := EventUpdate, rawKV := some kv } ∧
    elemValue (some kv) = kv.value ∧
    (e.eventType = EventDelete → serviceSpecPartFn decS fn e v = fn e zeroService) ∧
    (e.eventType ≠ EventDelete → decS v = some s →
      serviceSpecPartFn decS fn e v = fn e s) ∧
    (sync inf key g stream).snd = stream.map (fun el0 => (elemEvent el0, elemValue el0)) ∧
    (g (elemEvent el) (elemValue el) = false →
      sync inf key g (el :: rest) =
        ((sync (stopSyncOneKey inf key) key g rest).fst,
          (elemEvent el, elemValue el) :: (sync (stopSyncOneKey inf key) key g rest).snd)) ∧
    key ∉ (stopSyncOneKey inf key).syncers := by
  refine ⟨rfl, rfl, rfl, rfl, ?_, ?_, sync_trace_eq_map key g stream inf, ?_, ?_⟩
  · intro h
    simp [serviceSpecPartFn, h]
  · intro h1 h2
    simp [serviceSpecPartFn, h1, h2]
  · intro h
    simp [sync, h]
  · by_cases hc : key ∈ inf.syncers
    · simp only [stopSyncOneKey]
      rw [if_pos (by simpa using hc)]
      intro hmem
      simpa using (List.mem_filter.mp hmem).2
    · simp only [stopSyncOneKey]
      rw [if_neg (by simpa using hc)]
      exact hc

/-- A callback that always continues, for C5's witness. -/
def fnTrue : Event → Service → Bool := fun _ _ => true

/-- The concrete delete event of C5's witness. -/
def c5delEvent : Event := { eventType := EventDelete, rawKV := none }

/-- The concrete update event of C5's witness. -/
def c5updEvent : Event :=
  { eventType := EventUpdate, rawKV := some { key := "k", value := "svc-a" } }

/-- The concrete stream element of C5's witness. -/
def c5elem : Option KeyValue := some { key := "k", value := "v1" }

/-- Witness for the amended C5 at a concrete delete event, a concrete
update event, and a concrete stopping callback. -/
theorem syncEventTranslationAndStop_witness :
    serviceSpecPartFn c4wdec fnTrue c5delEvent "" = fnTrue c5delEvent zeroService ∧
    serviceSpecPartFn c4wdec fnTrue c5updEvent "svc-a" =
      fnTrue c5updEvent { name := "a", registerTenant := "T" } ∧
    sync c5inf "watch-k" fnFalse [c5elem] =
      ((sync (stopSyncOneKey c5inf "watch-k") "watch-k" fnFalse []).fst,
        (elemEvent c5elem, elemValue c5elem) ::
          (sync (stopSyncOneKey c5inf "watch-k") "watch-k" fnFalse []).snd) ∧
    "watch-k" ∉ (stopSyncOneKey c5inf "watch-k").syncers := by
  have h := syncEventTranslationAndStop c4wdec fnTrue fnFalse
    c5inf "watch-k" [] [] c5elem { key := "k", value := "svc-a" }
    c5delEvent "" zeroService
  have h2 := syncEventTranslationAndStop c4wdec fnTrue fnFalse
    c5inf "watch-k" [] [] c5elem { key := "k", value := "svc-a" }
    c5updEvent "svc-a" { name := "a", registerTenant := "T" }
  refine ⟨h.2.2.2.2.1 rfl, h2.2.2.2.2.2.1 (by decide) (by decide), ?_, h.2.2.2.2.2.2.2.2⟩
  exact h.2.2.2.2.2.2.2.1 rfl

/-! ### Claim C10 -/

/-- C10: when selfService is non-empty, not in globalServices, and either
absent from the service→tenant map or mapped to the empty tenant, the
tenant filter degrades to pass-through: each of the three tenant-scoped
prefix callbacks receives every decodable entry of the snapshot. -/
theorem tenantFilterPassThrough (decS : String → Option Service)
    (decIS : String → Option ServiceInstanceSpec)
    (decST : String → Option ServiceInstanceStatus)
    (inf : InformerState) (kvs1 kvs2 kvs3 : List (String × String))
    (hs : 0 < inf.service.length)
    (hg : ¬inf.globalServices.contains inf.service)
    (ht : inf.service2Tenants.lookup inf.service = none ∨
      inf.service2Tenants.lookup inf.service = some "") :
    onAllServiceSpecsSnapshot decS inf kvs1 =
      kvs1.filterMap (fun kv => (decS kv.snd).map (fun e => (kv.fst, e))) ∧
    onServiceInstanceSpecsSnapshot decIS inf kvs2 =
      kvs2.filterMap (fun kv => (decIS kv.snd).map (fun e => (kv.fst, e))) ∧
    onServiceInstanceStatusesSnapshot decST inf kvs3 =
      kvs3.filterMap (fun kv => (decST kv.snd).map (fun e => (kv.fst, e))) := by
  have hg2 : inf.service ∉ inf.globalServices := by simpa using hg
  have hvt : visibleTenant inf = "" := by
    rcases ht with h | h <;> simp [visibleTenant, hs, hg2, lookupS2T, h]
  refine ⟨?_, ?_, ?_⟩
  · rw [onAllServiceSpecsSnapshot, hvt]
    exact retainLoop_all_kept _ _ (fun e => by simp [serviceSpecKeep]) kvs1
  · rw [onServiceInstanceSpecsSnapshot, hvt]
    exact retainLoop_all_kept _ _ (fun e => by simp [instanceKeep]) kvs2
  · rw [onServiceInstanceStatusesSnapshot, hvt]
    exact retainLoop_all_kept _ _ (fun e => by simp [instanceKeep]) kvs3

/-- Witness for C10: the unmapped selfService of `c4inf` lets the foreign
entry through all three callbacks. -/
theorem tenantFilterPassThrough_witness :
    onAllServiceSpecsSnapshot c4dec c4inf [("k", "svc-other")] =
      [("k", { name := "other", registerTenant := "t2" })] ∧
    onServiceInstanceSpecsSnapshot
        (fun v => if v = "is" then some { serviceName := "other", instanceID := "i1" } else none)
        c4inf [("k2", "is")] =
      [("k2", { serviceName := "other", instanceID := "i1" })] := by
  have h := tenantFilterPassThrough c4dec
    (fun v => if v = "is" then some { serviceName := "other", instanceID := "i1" } else none)
    (fun _ => none) c4inf [("k", "svc-other")] [("k2", "is")] []
    (by decide) (by decide) (Or.inl (by decide))
  constructor
  · rw [h.1]
    decide
  · rw [h.2.1]
    decide

end Mesh
